import Mathlib

/-!
Shallow embedding of src/src/renderer/lib/api/api.ts (filen-desktop renderer
API client) and proofs of the frozen claims about it.

Modelling conventions:
  * JavaScript values flowing through JSON.parse / JSON.stringify are modelled
    by the inductive type Json below (numbers as Int; NaN and floats are not
    needed by any claim).
  * JSON.stringify and SHA-512 (bufferToHash) are platform primitives, not code
    of this repository; they are passed as explicit function parameters
    (jstr : Json -> String, h : List Nat -> String).  The claims are proved for
    every choice of these parameters.
  * UTF-8 encoding (TextEncoder / the default encoding of req.write) is
    modelled by utf8Bytes; both the checksum side and the body side of the
    source use the same encoder, which is what the checksum claims need.
  * Promise-returning code is modelled by explicit outcome/environment values
    (Except String _ for resolve/reject) and by run functions that consume a
    finite schedule of environment events.
-/

/-- JavaScript values as produced by JSON.parse and consumed by
JSON.stringify.  Numbers are modelled as integers. -/
inductive Json where
  | null
  | bool (b : Bool)
  | num (n : Int)
  | str (s : String)
  | arr (elems : List Json)
  | obj (fields : List (String × Json))

/-- Property lookup on a JavaScript value: a field of an object, undefined
(none) otherwise.  The model assumes objects with distinct keys. -/
def objGetJ (j : Json) (k : String) : Option Json :=
  match j with
  | .obj fs => (fs.find? (fun p => p.1 == k)).map (fun p => p.2)
  | _ => none

/-- JavaScript truthiness of a possibly-undefined value (undefined, null,
false, 0 and the empty string are falsy; objects and arrays are truthy). -/
def truthy : Option Json → Bool
  | none => false
  | some .null => false
  | some (.bool b) => b
  | some (.num n) => decide (n ≠ 0)
  | some (.str s) => decide (s ≠ "")
  | some (.arr _) => true
  | some (.obj _) => true

/-- The message string of a thrown new Error(x): the string itself for a
string argument, empty for an absent/undefined argument, and a rough string
coercion otherwise (only the string case is exercised by the claims). -/
def jsErrMsg : Option Json → String
  | none => ""
  | some (.str s) => s
  | some .null => "null"
  | some (.bool true) => "true"
  | some (.bool false) => "false"
  | some (.num n) => toString n
  | some (.arr _) => ""
  | some (.obj _) => "[object Object]"

/-- ASCII lower-casing of one character (model of String.prototype.toLowerCase
on the ASCII range, which is all the compared message strings use). -/
def asciiLower (c : Char) : Char :=
  if 65 ≤ c.toNat ∧ c.toNat ≤ 90 then Char.ofNat (c.toNat + 32) else c

/-- ASCII upper-casing of one character (model of toUpperCase). -/
def asciiUpper (c : Char) : Char :=
  if 97 ≤ c.toNat ∧ c.toNat ≤ 122 then Char.ofNat (c.toNat - 32) else c

/-- Lower-case a string, character by character. -/
def lowerStr (s : String) : String := String.mk (s.data.map asciiLower)

/-- Upper-case a string, character by character. -/
def upperStr (s : String) : String := String.mk (s.data.map asciiUpper)

/-- Whether the first list is an initial segment of the second. -/
def isPrefixList : List Char → List Char → Bool
  | [], _ => true
  | _ :: _, [] => false
  | a :: as, b :: bs => a == b && isPrefixList as bs

/-- Substring search on character lists (hay, then needle). -/
def containsSubAux : List Char → List Char → Bool
  | [], needle => needle.isEmpty
  | c :: rest, needle => isPrefixList needle (c :: rest) || containsSubAux rest needle

/-- Model of hay.indexOf(needle) !== -1. -/
def containsSubstr (hay needle : String) : Bool :=
  containsSubAux hay.data needle.data

/-- Byte sequence of a string under the model encoder (one code point per
entry).  Both TextEncoder().encode and the body written by req.write are
modelled with this same function, mirroring that the source feeds the same
string to both. -/
def utf8Bytes (s : String) : List Nat := s.data.map Char.toNat

/-- Upper-case hexadecimal digit for a value below 16. -/
def hexDigit (n : Nat) : Char :=
  if n < 10 then Char.ofNat (48 + n) else Char.ofNat (55 + n)

/-- Characters that encodeURIComponent leaves unescaped:
A-Z, a-z, 0-9 and - _ . ! ~ * ' ( ). -/
def isUnreservedChar (c : Char) : Bool :=
  (65 ≤ c.toNat && c.toNat ≤ 90) || (97 ≤ c.toNat && c.toNat ≤ 122) ||
  (48 ≤ c.toNat && c.toNat ≤ 57) ||
  (c.toNat ∈ [45, 95, 46, 33, 126, 42, 39, 40, 41])

/-- Modelled from the spec: encodeURIComponent is a platform primitive (not
code of this repository).  Unreserved characters pass through; any other
character becomes a percent escape of its low byte. -/
def encodeChar (c : Char) : List Char :=
  if isUnreservedChar c then [c]
  else [Char.ofNat 37, hexDigit (c.toNat % 256 / 16), hexDigit (c.toNat % 256 % 16)]

/-- Modelled from the spec: encodeURIComponent applied to a whole string. -/
def encodeURIComponent (s : String) : String :=
  String.mk (s.data.foldr (fun c acc => encodeChar c ++ acc) [])

/-- Value of a hexadecimal digit character, if it is one. -/
def hexVal (c : Char) : Option Nat :=
  if 48 ≤ c.toNat ∧ c.toNat ≤ 57 then some (c.toNat - 48)
  else if 65 ≤ c.toNat ∧ c.toNat ≤ 70 then some (c.toNat - 55)
  else if 97 ≤ c.toNat ∧ c.toNat ≤ 102 then some (c.toNat - 87)
  else none

/-- Modelled from the spec: percent-decoding as done by URLSearchParams.
A percent escape yields its byte, a plus sign yields a space, anything else
passes through. -/
def decodeChars : List Char → List Char
  | [] => []
  | c :: h1 :: h2 :: r =>
    if c = Char.ofNat 37 then
      match hexVal h1, hexVal h2 with
      | some a, some b => Char.ofNat (16 * a + b) :: decodeChars r
      | _, _ => c :: decodeChars (h1 :: h2 :: r)
    else if c = Char.ofNat 43 then Char.ofNat 32 :: decodeChars (h1 :: h2 :: r)
    else c :: decodeChars (h1 :: h2 :: r)
  | c :: rest =>
    if c = Char.ofNat 43 then Char.ofNat 32 :: decodeChars rest
    else c :: decodeChars rest

/-- Split a character list on ampersands; always returns at least one
(possibly empty) segment. -/
def splitAmp : List Char → List (List Char)
  | [] => [[]]
  | c :: rest =>
    if c = Char.ofNat 38 then [] :: splitAmp rest
    else
      match splitAmp rest with
      | [] => [[c]]
      | g :: gs => (c :: g) :: gs

/-- Split a segment at its first equals sign into key and value (the whole
segment and an empty value when there is none). -/
def splitEq : List Char → List Char × List Char
  | [] => ([], [])
  | c :: rest =>
    if c = Char.ofNat 61 then ([], rest)
    else
      let p := splitEq rest
      (c :: p.1, p.2)

/-- Modelled from the spec: the pair list produced by iterating a
URLSearchParams built from a query string (helpers.ts is not under src).
Empty segments are skipped; keys and values are percent-decoded. -/
def parseURLParams (s : String) : List (String × String) :=
  ((splitAmp s.data).filter (fun seg => !seg.isEmpty)).map
    (fun seg =>
      let p := splitEq seg
      (String.mk (decodeChars p.1), String.mk (decodeChars p.2)))

/-- Assign key k to value v in a JavaScript-object model: replace the first
binding of k, else append. -/
def setKey : List (String × String) → String → String → List (String × String)
  | [], k, v => [(k, v)]
  | p :: rest, k, v =>
    if p.1 = k then (k, v) :: rest else p :: setKey rest k v

/-- Modelled from the spec: parseURLParamsSearch (helpers.ts, not under src)
copies every URLSearchParams entry into a plain object; later duplicate keys
overwrite earlier ones. -/
def collapseParams (ps : List (String × String)) : List (String × String) :=
  ps.foldl (fun acc p => setKey acc p.1 p.2) []

/-- Lookup in the collapsed object. -/
def lookupKey (k : String) : List (String × String) → Option String
  | [] => none
  | p :: rest => if p.1 = k then some p.2 else lookupKey k rest

/-- First occurrence of a key in the raw pair list (URLSearchParams.get). -/
def lookupFirst (k : String) : List (String × String) → Option String
  | [] => none
  | p :: rest => if p.1 = k then some p.2 else lookupFirst k rest

/-- The parsed query parameters as the JavaScript object handed to
JSON.stringify by uploadChunk. -/
def paramsToJson (ps : List (String × String)) : Json :=
  .obj (ps.map (fun p => (p.1, .str p.2)))

/-!  Transport: doAPIRequest (api.ts lines 74-207).  -/

/-- Headers carried by a built HTTPS request. -/
structure RequestHeaders where
  contentType : String
  userAgent : String
  authorization : String
  checksum : String

/-- An HTTPS request as assembled by https.request options plus the body
written before req.end. -/
structure BuiltRequest where
  method : String
  hostname : String
  port : Nat
  path : String
  headers : RequestHeaders
  body : Option String

/-- The User-Agent string of api.ts: "filen-desktop/" + version + "-" +
buildNumber + "-" + process.platform. -/
def userAgentString (version buildNumber platform : String) : String :=
  "filen-desktop/" ++ version ++ "-" ++ buildNumber ++ "-" ++ platform

/-- The HTTPS request assembled by doAPIRequest (api.ts lines 83, 110-200):
checksum is the SHA-512 (h) of the encoded JSON.stringify (jstr) of data,
hostname is the literal "gateway.filen.io", and the body written before
req.end is JSON.stringify(data) exactly when the upper-cased method is POST.
The two platform primitives h (bufferToHash with SHA-512) and jstr
(JSON.stringify) are passed in as functions. -/
def doAPIRequestBuild (h : List Nat → String) (jstr : Json → String)
    (method endpoint : String) (data : Json) (apiKey : String)
    (version buildNumber platform : String) : BuiltRequest :=
  let checksum := h (utf8Bytes (jstr data))
  { method := upperStr method
    hostname := "gateway.filen.io"
    port := 443
    path := endpoint
    headers :=
      { contentType := "application/json"
        userAgent := userAgentString version buildNumber platform
        authorization := "Bearer " ++ apiKey
        checksum := checksum }
    body := if upperStr method = "POST" then some (jstr data) else none }

/-- Modelled from the spec: constants.json is not under src.  Section 4.1 of
the spec describes a configured list of equivalent API gateways; we model it
with the production gateway and one equivalent alternative. -/
def apiServers : List String := ["gateway.filen.io", "gateway.filen.net"]

/-- Modelled from the spec: getRandomArbitrary (helpers.ts) and constants.json
are not under src.  getAPIServer (api.ts lines 62-64) returns the entry of
apiServers at an index sampled uniformly at random; the sampled index is
passed explicitly here. -/
def getAPIServer (randIndex : Nat) : String := apiServers.getD randIndex ""

/-!  Transport retry loops (api.ts lines 85-203, 1407-1535, 1654-1747).
Each doRequest closure is modelled as a loop over a finite schedule of
iterations; one iteration reports the navigator.onLine value observed at its
start and, if a request is issued, the outcome of that request.  -/

/-- What one loop iteration does once its HTTP attempt finishes: schedule
another attempt, or settle the promise. -/
inductive StepResult (α : Type) where
  | retryStep
  | finish (r : Except String α)

/-- One iteration of a doRequest loop: the navigator.onLine value it observes
and, if it issues a request, that request's outcome. -/
structure RetryIter (ω : Type) where
  online : Bool
  outcome : ω

/-- The shared shape of the three doRequest loops: while offline, sleep and
loop without counting; reject with failMsg when currentTries has reached the
maximum before issuing; otherwise increment, issue the attempt and act on its
outcome.  Returns the number of HTTP attempts issued together with the settled
result (none when the schedule ran out while still looping). -/
def runRetryLoop {α ω : Type} (step : ω → StepResult α) (maxRetry : Nat)
    (failMsg : String) : Nat → List (RetryIter ω) → Nat × Option (Except String α)
  | _, [] => (0, none)
  | tries, it :: rest =>
    if it.online = false then runRetryLoop step maxRetry failMsg tries rest
    else if maxRetry ≤ tries then (0, some (Except.error failMsg))
    else
      match step it.outcome with
      | .finish r => (1, some r)
      | .retryStep =>
        let p := runRetryLoop step maxRetry failMsg (tries + 1) rest
        (p.1 + 1, p.2)

/-- Outcome of one doAPIRequest HTTP attempt (api.ts lines 126-194):
a connection error, a timeout, a non-200 status code, or a 200 response whose
body either fails to parse or parses to a value. -/
inductive APIOutcome where
  | connError (e : String)
  | timedOut
  | badStatus (code : Nat)
  | parseFailed (e : String)
  | parsed (obj : Json)

/-- doAPIRequest's handling of one attempt outcome (api.ts lines 126-194):
errors, timeouts and non-200 statuses schedule a retry; a parse failure
rejects; a parsed body with code == "internal_error" schedules a retry;
anything else resolves. -/
def apiAttemptStep : APIOutcome → StepResult Json
  | .connError _ => .retryStep
  | .timedOut => .retryStep
  | .badStatus _ => .retryStep
  | .parseFailed e => .finish (.error e)
  | .parsed obj =>
    match objGetJ obj "code" with
    | some (.str c) => if c = "internal_error" then .retryStep else .finish (.ok obj)
    | _ => .finish (.ok obj)

/-- The rejection message of doAPIRequest when retries are exhausted (api.ts
lines 92-106): it serializes the method, endpoint, data and timeout. -/
def apiMaxRetryMessage (jstr : Json → String) (maxRetry : Nat)
    (method endpoint : String) (data : Json) (timeout : Int) : String :=
  "Maximum retries (" ++ toString maxRetry ++ ") reached for API request: " ++
    jstr (Json.obj
      [("method", .str method), ("endpoint", .str endpoint),
       ("data", data), ("timeout", .num timeout)])

/-- The doAPIRequest retry loop (api.ts lines 85-203) over a finite schedule. -/
def runDoAPIRequest (jstr : Json → String) (maxRetryAPIRequest : Nat)
    (method endpoint : String) (data : Json) (timeout : Int)
    (sched : List (RetryIter APIOutcome)) : Nat × Option (Except String Json) :=
  runRetryLoop apiAttemptStep maxRetryAPIRequest
    (apiMaxRetryMessage jstr maxRetryAPIRequest method endpoint data timeout) 0 sched

/-!  uploadChunk (api.ts lines 1313-1541) and downloadChunk (1568-1751).  -/

/-- The query string after uploadChunk appends the chunk hash (api.ts line
1389): queryParams + "&hash=" + encodeURIComponent(chunkHash). -/
def uploadQueryAppendHash (queryParams chunkHash : String) : String :=
  queryParams ++ "&hash=" ++ encodeURIComponent chunkHash

/-- The parsed-query-parameters object uploadChunk serializes for its
checksum (api.ts lines 1391-1393): the URLSearchParams of the appended query
string, collapsed into a plain object. -/
def uploadParsedParams (queryParams chunkHash : String) : List (String × String) :=
  collapseParams (parseURLParams (uploadQueryAppendHash queryParams chunkHash))

/-- The Checksum header value of uploadChunk (api.ts line 1395): SHA-512 (h)
of the encoded JSON.stringify (jstr) of the parsed query parameters. -/
def uploadChunkChecksum (h : List Nat → String) (jstr : Json → String)
    (queryParams chunkHash : String) : String :=
  h (utf8Bytes (jstr (paramsToJson (uploadParsedParams queryParams chunkHash))))

/-- The uuid uploadChunk reports in progress events and error messages
(api.ts line 1392): urlParams.get("uuid") || "". -/
def uploadUuidOf (queryParams chunkHash : String) : String :=
  (lookupFirst "uuid" (parseURLParams (uploadQueryAppendHash queryParams chunkHash))).getD ""

/-- The HTTPS request assembled by one uploadChunk attempt (api.ts lines
1447-1462): POST to ingest.filen.io at /v3/upload?<appended query> with the
parsed-params checksum header. -/
def uploadChunkBuild (h : List Nat → String) (jstr : Json → String)
    (queryParams chunkHash apiKey version buildNumber platform : String) : BuiltRequest :=
  { method := "POST"
    hostname := "ingest.filen.io"
    port := 443
    path := "/v3/upload?" ++ uploadQueryAppendHash queryParams chunkHash
    headers :=
      { contentType := "application/x-www-form-urlencoded"
        userAgent := userAgentString version buildNumber platform
        authorization := "Bearer " ++ apiKey
        checksum := uploadChunkChecksum h jstr queryParams chunkHash }
    body := none }

/-- uploadChunk's handling of a parsed 200 response (api.ts lines 1482-1497):
on falsy status, if the lower-cased message mentions "storage" the
configuration store receives paused=true and maxStorageReached=true, and the
promise rejects with the server message; without "storage" it rejects with the
message and writes nothing; a non-string message makes message.toLowerCase()
throw, which the surrounding try/catch turns into a rejection.  Returns the
configuration-store writes together with the settled result. -/
def uploadHandleParsed (obj : Json) : List (String × Json) × Except String Json :=
  if truthy (objGetJ obj "status") = true then ([], .ok obj)
  else
    match objGetJ obj "message" with
    | some (.str m) =>
      if containsSubstr (lowerStr m) "storage" = true then
        ([("paused", .bool true), ("maxStorageReached", .bool true)], .error m)
      else ([], .error m)
    | _ => ([], .error "TypeError: message is not a string")

/-- Outcome of one uploadChunk HTTP attempt (api.ts lines 1463-1520):
a non-200 status retries; a request error or timeout rejects outright; a 200
response body either fails to parse (reject) or parses (handled by
uploadHandleParsed). -/
inductive UploadOutcome where
  | badStatus (code : Nat)
  | reqError (e : String)
  | timedOut
  | parseFailed (e : String)
  | parsed (obj : Json)

/-- uploadChunk's per-attempt step (api.ts lines 1463-1520). -/
def uploadAttemptStep : UploadOutcome → StepResult Json
  | .badStatus _ => .retryStep
  | .reqError e => .finish (.error e)
  | .timedOut => .finish (.error "Upload request timed out")
  | .parseFailed e => .finish (.error e)
  | .parsed obj => .finish (uploadHandleParsed obj).2

/-- The uploadChunk retry loop (api.ts lines 1407-1535) over a finite
schedule; the rejection message at exhaustion names the chunk uuid. -/
def runUploadChunk (maxRetryUpload : Nat) (queryParams chunkHash : String)
    (sched : List (RetryIter UploadOutcome)) : Nat × Option (Except String Json) :=
  runRetryLoop uploadAttemptStep maxRetryUpload
    ("Max retries reached for upload " ++ uploadUuidOf queryParams chunkHash) 0 sched

/-- Outcome of one downloadChunk HTTP attempt (api.ts lines 1669-1744):
non-200 statuses, request errors, response errors and timeouts all retry;
a complete 200 response resolves with the concatenated bytes. -/
inductive DownloadOutcome where
  | badStatus (code : Nat)
  | reqError (e : String)
  | responseError (e : String)
  | timedOut
  | gotBytes (bytes : List Nat)

/-- downloadChunk's per-attempt step (api.ts lines 1669-1744). -/
def downloadAttemptStep : DownloadOutcome → StepResult (List Nat)
  | .badStatus _ => .retryStep
  | .reqError _ => .retryStep
  | .responseError _ => .retryStep
  | .timedOut => .retryStep
  | .gotBytes bs => .finish (.ok bs)

/-- The rejection message of downloadChunk at exhaustion (api.ts line 1662):
it names the chunk path /region/bucket/uuid/index. -/
def downloadMaxRetryMessage (region bucket uuid : String) (index : Nat) : String :=
  "Max retries reached for /" ++ region ++ "/" ++ bucket ++ "/" ++ uuid ++ "/" ++ toString index

/-- The downloadChunk retry loop (api.ts lines 1654-1747) over a finite
schedule. -/
def runDownloadChunk (maxRetryDownload : Nat) (region bucket uuid : String)
    (index : Nat) (sched : List (RetryIter DownloadOutcome)) :
    Nat × Option (Except String (List Nat)) :=
  runRetryLoop downloadAttemptStep maxRetryDownload
    (downloadMaxRetryMessage region bucket uuid index) 0 sched

/-!  apiRequest session-invalidation check (api.ts lines 209-240).  -/

/-- The condition of api.ts lines 225-231: the response is an object carrying
a string code and a string message, and the lower-cased message contains
"api key not found" or "invalid api key", or the code equals
"api_key_not_found". -/
def sessionInvalidCheck (resp : Json) : Bool :=
  match objGetJ resp "code", objGetJ resp "message" with
  | some (.str c), some (.str m) =>
    containsSubstr (lowerStr m) "api key not found" ||
    containsSubstr (lowerStr m) "invalid api key" ||
    c == "api_key_not_found"
  | _, _ => false

/-- apiRequest's post-processing of a resolved doAPIRequest value (api.ts
lines 225-239): when sessionInvalidCheck holds, the external logout
collaborator is invoked once and the call throws "Session invalidated";
otherwise the response is returned and logout is not invoked.  The first
component counts logout invocations. -/
def apiRequestPostProcess (resp : Json) : Nat × Except String Json :=
  if sessionInvalidCheck resp = true then (1, .error "Session invalidated")
  else (0, .ok resp)

/-!  createFolder (api.ts lines 400-445) and the 1-permit semaphore.  -/

/-- Environment of one createFolder run after the semaphore was acquired:
the outcomes of db.get("masterKeys"), encryptMetadata, apiRequest and
checkIfItemParentIsShared, each of which the source awaits and any of which
may reject. -/
structure CreateFolderEnv where
  masterKeysRes : Except String Json
  encryptRes : Except String String
  apiRes : Except String Json
  propagateRes : Except String Unit

/-- Result of one createFolder run: how many times the 1-permit semaphore was
released, whether metadata propagation (checkIfItemParentIsShared) was
triggered, and the settled value. -/
structure CreateFolderRun where
  releases : Nat
  propagated : Bool
  result : Except String Json

/-- createFolder after acquiring the semaphore (api.ts lines 403-444):
any throw inside the try block is caught, the semaphore is released and the
error rethrown; a status=false response with data.existsUUID releases and
resolves with that UUID without propagation; otherwise a status=false
response throws the server message; a status=true response triggers
propagation, releases and resolves with the new uuid. -/
def runCreateFolder (env : CreateFolderEnv) (uuid : String) : CreateFolderRun :=
  match env.masterKeysRes with
  | .error e => ⟨1, false, .error e⟩
  | .ok _ =>
    match env.encryptRes with
    | .error e => ⟨1, false, .error e⟩
    | .ok _ =>
      match env.apiRes with
      | .error e => ⟨1, false, .error e⟩
      | .ok resp =>
        if truthy (objGetJ resp "status") = false then
          match (objGetJ resp "data").bind (fun d => objGetJ d "existsUUID") with
          | some existsUUID => ⟨1, false, .ok existsUUID⟩
          | none => ⟨1, false, .error (jsErrMsg (objGetJ resp "message"))⟩
        else
          match env.propagateRes with
          | .error e => ⟨1, true, .error e⟩
          | .ok _ => ⟨1, true, .ok (.str uuid)⟩

/-!  trashItem, moveFile, moveFolder, renameFile, renameFolder
     (api.ts lines 1753-1909).  -/

/-- Model of ["..."].includes(response.code): true exactly when the code
field is one of the listed strings. -/
def jsIncludes (codes : List String) (v : Option Json) : Bool :=
  match v with
  | some (.str c) => codes.contains c
  | _ => false

/-- trashItem's response handling (api.ts lines 1762-1768): a falsy status
with code folder_not_found or file_not_found resolves; any other falsy status
throws the server message. -/
def trashItemHandle (resp : Json) : Except String Unit :=
  if truthy (objGetJ resp "status") = false then
    if jsIncludes ["folder_not_found", "file_not_found"] (objGetJ resp "code") = true then .ok ()
    else .error (jsErrMsg (objGetJ resp "message"))
  else .ok ()

/-- moveFile's response handling (api.ts lines 1781-1800): a falsy status
with code file_not_found resolves early (skipping propagation); any other
falsy status throws; a truthy status awaits propagation. -/
def moveFileHandle (resp : Json) (propagateRes : Except String Unit) : Except String Unit :=
  if truthy (objGetJ resp "status") = false then
    if jsIncludes ["file_not_found"] (objGetJ resp "code") = true then .ok ()
    else .error (jsErrMsg (objGetJ resp "message"))
  else propagateRes

/-- moveFolder's response handling (api.ts lines 1813-1828), analogous with
code folder_not_found. -/
def moveFolderHandle (resp : Json) (propagateRes : Except String Unit) : Except String Unit :=
  if truthy (objGetJ resp "status") = false then
    if jsIncludes ["folder_not_found"] (objGetJ resp "code") = true then .ok ()
    else .error (jsErrMsg (objGetJ resp "message"))
  else propagateRes

/-- renameFile's response handling (api.ts lines 1859-1877): code
file_not_found on a falsy status resolves early. -/
def renameFileHandle (resp : Json) (propagateRes : Except String Unit) : Except String Unit :=
  if truthy (objGetJ resp "status") = false then
    if jsIncludes ["file_not_found"] (objGetJ resp "code") = true then .ok ()
    else .error (jsErrMsg (objGetJ resp "message"))
  else propagateRes

/-- renameFolder's response handling (api.ts lines 1894-1908): code
folder_not_found on a falsy status resolves early. -/
def renameFolderHandle (resp : Json) (propagateRes : Except String Unit) : Except String Unit :=
  if truthy (objGetJ resp "status") = false then
    if jsIncludes ["folder_not_found"] (objGetJ resp "code") = true then .ok ()
    else .error (jsErrMsg (objGetJ resp "message"))
  else propagateRes

/-!  The pause gate of uploadChunk and downloadChunk
     (api.ts lines 1331-1387 and 1586-1642).  -/

/-- The pause-related configuration read at one instant: the global paused
flag, the two per-direction flags, and isSyncLocationPaused for the call's
location. -/
structure PauseFlags where
  paused : Bool
  downloadPaused : Bool
  uploadPaused : Bool
  locationPaused : Bool
deriving DecidableEq, Repr

/-- Which pause condition getPausedStatus consults (api.ts lines 1332-1384):
for from == "sync" with a location carrying a string uuid, global paused or
the location's pause; for sync without one, global paused; otherwise
downloadPaused when from names download, uploadPaused when it names upload,
global paused else. -/
def applicablePaused (src : String) (location : Option String) (f : PauseFlags) : Bool :=
  if src = "sync" then
    match location with
    | some _ => f.paused || f.locationPaused
    | none => f.paused
  else if containsSubstr src "download" = true then f.downloadPaused
  else if containsSubstr src "upload" = true then f.uploadPaused
  else f.paused

/-- One observable step of a transfer call: a gate poll that found a pause
flag set (and scheduled the next poll after the given delay), a gate poll
that found none set, or an HTTP attempt; each records the pause flags in
force at that instant. -/
inductive TransferEvent where
  | pollBlocked (flags : PauseFlags) (delayMs : Nat)
  | pollPassed (flags : PauseFlags)
  | attempt (flags : PauseFlags)
deriving DecidableEq, Repr

/-- The environment at one engine step: the pause flags and navigator.onLine
value readable at that instant, and the outcome of an HTTP attempt if one is
issued. -/
structure TransferIter (ω : Type) where
  flags : PauseFlags
  online : Bool
  outcome : ω

/-- The shared shape of uploadChunk and downloadChunk after their initial
reads (api.ts lines 1331-1535 and 1586-1747): a polling gate (1000 ms cadence)
runs before the attempt loop and, once passed, is never re-entered; each
iteration of the attempt loop skips while offline, stops at the retry bound,
and otherwise issues an HTTP attempt whose outcome is handled by step.
Returns the emitted event trace. -/
def runTransferTrace {ω α : Type} (step : ω → StepResult α) (src : String)
    (location : Option String) (maxRetry : Nat) :
    Bool → Nat → List (TransferIter ω) → List TransferEvent
  | _, _, [] => []
  | false, tries, it :: rest =>
    if applicablePaused src location it.flags = true then
      .pollBlocked it.flags 1000 :: runTransferTrace step src location maxRetry false tries rest
    else
      .pollPassed it.flags :: runTransferTrace step src location maxRetry true tries rest
  | true, tries, it :: rest =>
    if it.online = false then runTransferTrace step src location maxRetry true tries rest
    else if maxRetry ≤ tries then []
    else
      .attempt it.flags ::
        match step it.outcome with
        | .finish _ => []
        | .retryStep => runTransferTrace step src location maxRetry true (tries + 1) rest

/-- The event trace of one uploadChunk call (api.ts lines 1331-1535). -/
def runUploadChunkTrace (src : String) (location : Option String) (maxRetry : Nat)
    (env : List (TransferIter UploadOutcome)) : List TransferEvent :=
  runTransferTrace uploadAttemptStep src location maxRetry false 0 env

/-- The event trace of one downloadChunk call (api.ts lines 1586-1747). -/
def runDownloadChunkTrace (src : String) (location : Option String) (maxRetry : Nat)
    (env : List (TransferIter DownloadOutcome)) : List TransferEvent :=
  runTransferTrace downloadAttemptStep src location maxRetry false 0 env

/-- The property claimed of the pause gate: no HTTP attempt is emitted while
the applicable pause flag is set. -/
def noAttemptWhilePaused (src : String) (location : Option String)
    (tr : List TransferEvent) : Bool :=
  tr.all fun e =>
    match e with
    | .attempt f => !applicablePaused src location f
    | _ => true

/-- Whether a trace contains an HTTP attempt before its first passing gate
poll. -/
def attemptBeforePass : List TransferEvent → Bool
  | [] => false
  | .attempt _ :: _ => true
  | .pollPassed _ :: _ => false
  | .pollBlocked _ _ :: r => attemptBeforePass r

/-!  checkIfItemParentIsShared: the items-to-share / items-to-link lists for a
     folder mutation (api.ts lines 735-793 share fan-out, 960-1018 link
     fan-out).  decryptFileMetadata, decryptFolderName and striptags are
     external collaborators and are passed as functions; a decryptFolderName
     failure (the source's try/catch around the await) is modelled by none. -/

/-- A file row of the /v3/dir/download contents: uuid, parent and the
encrypted metadata blob. -/
structure RemoteFileEntry where
  uuid : String
  parent : String
  metadata : String

/-- A folder row of the /v3/dir/download contents: uuid, parent and the
encrypted name blob. -/
structure RemoteFolderEntry where
  uuid : String
  parent : String
  name : String

/-- A decrypted file metadata record (the object decryptFileMetadata yields
when it succeeds with a string name). -/
structure FileMeta where
  name : String
  size : Json
  mime : String
  key : Json
  lastModified : Json

/-- The metadata carried by one entry of the items list: a file record or a
plain folder name. -/
inductive ShareMeta where
  | fileMeta (name : String) (size : Json) (mime : String) (key : Json) (lastModified : Json)
  | folderName (name : String)

/-- One entry of the items-to-share / items-to-link list. -/
structure ShareListItem where
  uuid : String
  parent : String
  metadata : ShareMeta
  ty : String

/-- The file loop body (api.ts lines 749-772): a file is pushed with its real
parent when its metadata decrypts to an object with a string name whose
tag-stripped form is nonempty; the mime is tag-stripped as well. -/
def fileShareEntry (strip : String → String) (decFile : String → Option FileMeta)
    (f : RemoteFileEntry) : Option ShareListItem :=
  match decFile f.metadata with
  | some m =>
    let n := strip m.name
    if 0 < n.length then
      some ⟨f.uuid, f.parent, .fileMeta n m.size (strip m.mime) m.key m.lastModified, "file"⟩
    else none
  | none => none

/-- The folder loop (api.ts lines 774-793): the variable decrypted is
declared with var inside try, so when decryptFolderName throws at iteration
i the value from the previous iteration is still in scope and the typeof
check passes with that stale value.  The loop threads that value (last); a
folder is pushed when the current value is a nonempty string, its uuid is not
the mutated folder's and its parent is not "base", with the parent rewritten
to "none" exactly at loop index 0. -/
def foldersShareLoop (strip : String → String) (decFolder : String → Option String)
    (metaUuid : String) : Nat → Option String → List RemoteFolderEntry → List ShareListItem
  | _, _, [] => []
  | i, last, f :: rest =>
    let cur := match decFolder f.name with
      | some s => some (strip s)
      | none => last
    let tailItems := foldersShareLoop strip decFolder metaUuid (i + 1) cur rest
    match cur with
    | some s =>
      if 0 < s.length ∧ f.uuid ≠ metaUuid ∧ f.parent ≠ "base" then
        ⟨f.uuid, if i = 0 then "none" else f.parent, .folderName s, "folder"⟩ :: tailItems
      else tailItems
    | none => tailItems

/-- The items-to-share list built for a folder mutation (api.ts lines
735-793): the mutated folder itself with its real parent and plaintext name,
then the file loop, then the folder loop started at index 0 with no previous
decryption in scope. -/
def buildItemsToShare (strip : String → String) (decFile : String → Option FileMeta)
    (decFolder : String → Option String) (metaUuid metaName parent : String)
    (files : List RemoteFileEntry) (folders : List RemoteFolderEntry) : List ShareListItem :=
  ⟨metaUuid, parent, .folderName metaName, "folder"⟩ ::
    (files.filterMap (fileShareEntry strip decFile) ++
      foldersShareLoop strip decFolder metaUuid 0 none folders)

/-- The items-to-link list built by the link fan-out (api.ts lines 960-1018),
which repeats the share fan-out's construction verbatim. -/
def buildItemsToLink (strip : String → String) (decFile : String → Option FileMeta)
    (decFolder : String → Option String) (metaUuid metaName parent : String)
    (files : List RemoteFileEntry) (folders : List RemoteFolderEntry) : List ShareListItem :=
  ⟨metaUuid, parent, .folderName metaName, "folder"⟩ ::
    (files.filterMap (fileShareEntry strip decFile) ++
      foldersShareLoop strip decFolder metaUuid 0 none folders)

/-- The value the folder loop's stale variable holds just after processing
index i, computed from scratch: the tag-stripped result of the last
successful decryption among indices 0..i (starting from the given value). -/
def staleNameFrom (strip : String → String) (decFolder : String → Option String)
    (start : Option String) (folders : List RemoteFolderEntry) (i : Nat) : Option String :=
  (folders.take (i + 1)).foldl
    (fun last f =>
      match decFolder f.name with
      | some s => some (strip s)
      | none => last)
    start

/-- The folder-loop entry emitted at absolute index i given the stale value
cur in force there and the folder row at that index. -/
def folderEntryAux (metaUuid : String) (i : Nat) (cur : Option String)
    (row : Option RemoteFolderEntry) : Option ShareListItem :=
  match row with
  | none => none
  | some f =>
    match cur with
    | some s =>
      if 0 < s.length ∧ f.uuid ≠ metaUuid ∧ f.parent ≠ "base" then
        some ⟨f.uuid, if i = 0 then "none" else f.parent, .folderName s, "folder"⟩
      else none
    | none => none

/-- The folder-loop entry at index i of the folders array, described
positionally (used to state what the loop produces). -/
def folderEntryAt (strip : String → String) (decFolder : String → Option String)
    (metaUuid : String) (folders : List RemoteFolderEntry) (i : Nat) : Option ShareListItem :=
  folderEntryAux metaUuid i (staleNameFrom strip decFolder none folders i) (folders.get? i)

/-!  Lemmas about the retry loops.  -/

/-- The number of HTTP attempts a retry loop issues never exceeds the retry
budget remaining below the maximum. -/
theorem runRetryLoop_attempts_le {α ω : Type} (step : ω → StepResult α)
    (maxRetry : Nat) (failMsg : String) :
    ∀ (sched : List (RetryIter ω)) (tries : Nat),
      (runRetryLoop step maxRetry failMsg tries sched).1 ≤ maxRetry - tries := by
  intro sched
  induction sched with
  | nil => intro tries; simp [runRetryLoop]
  | cons it rest ih =>
    intro tries
    rcases it with ⟨online, outcome⟩
    cases online with
    | false => simpa [runRetryLoop] using ih tries
    | true =>
      by_cases hm : maxRetry ≤ tries
      · simp [runRetryLoop, hm]
      · have h2 := ih (tries + 1)
        cases hstep : step outcome with
        | finish r => simp [runRetryLoop, hm, hstep]; omega
        | retryStep => simp [runRetryLoop, hm, hstep]; omega

/-- C2: for every call to doAPIRequest, uploadChunk and downloadChunk, the
number of HTTP attempts issued is at most maxRetryAPIRequest, maxRetryUpload
and maxRetryDownload respectively; iterations observed while
navigator.onLine is false do not increment the attempt counter; and once the
counter has reached the maximum, an online iteration settles the call with an
error (for the API path, the error that serializes the method, endpoint and
data). -/
theorem C2_retry_bounds (jstr : Json → String)
    (maxRetryAPIRequest maxRetryUpload maxRetryDownload : Nat)
    (method endpoint : String) (data : Json) (timeout : Int)
    (queryParams chunkHash region bucket uuid : String) (index : Nat) :
    (∀ sched, (runDoAPIRequest jstr maxRetryAPIRequest method endpoint data timeout sched).1
        ≤ maxRetryAPIRequest) ∧
    (∀ sched, (runUploadChunk maxRetryUpload queryParams chunkHash sched).1
        ≤ maxRetryUpload) ∧
    (∀ sched, (runDownloadChunk maxRetryDownload region bucket uuid index sched).1
        ≤ maxRetryDownload) ∧
    (∀ (o : APIOutcome) rest,
      runDoAPIRequest jstr maxRetryAPIRequest method endpoint data timeout (⟨false, o⟩ :: rest)
        = runDoAPIRequest jstr maxRetryAPIRequest method endpoint data timeout rest) ∧
    (∀ (o : UploadOutcome) rest,
      runUploadChunk maxRetryUpload queryParams chunkHash (⟨false, o⟩ :: rest)
        = runUploadChunk maxRetryUpload queryParams chunkHash rest) ∧
    (∀ (o : DownloadOutcome) rest,
      runDownloadChunk maxRetryDownload region bucket uuid index (⟨false, o⟩ :: rest)
        = runDownloadChunk maxRetryDownload region bucket uuid index rest) ∧
    (∀ (it : RetryIter APIOutcome) rest, it.online = true →
      runRetryLoop apiAttemptStep maxRetryAPIRequest
          (apiMaxRetryMessage jstr maxRetryAPIRequest method endpoint data timeout)
          maxRetryAPIRequest (it :: rest)
        = (0, some (Except.error
            (apiMaxRetryMessage jstr maxRetryAPIRequest method endpoint data timeout)))) ∧
    (∀ (it : RetryIter UploadOutcome) rest, it.online = true →
      runRetryLoop uploadAttemptStep maxRetryUpload
          ("Max retries reached for upload " ++ uploadUuidOf queryParams chunkHash)
          maxRetryUpload (it :: rest)
        = (0, some (Except.error
            ("Max retries reached for upload " ++ uploadUuidOf queryParams chunkHash)))) ∧
    (∀ (it : RetryIter DownloadOutcome) rest, it.online = true →
      runRetryLoop downloadAttemptStep maxRetryDownload
          (downloadMaxRetryMessage region bucket uuid index)
          maxRetryDownload (it :: rest)
        = (0, some (Except.error (downloadMaxRetryMessage region bucket uuid index)))) := by
  refine ⟨?_, ?_, ?_, ?_, ?_, ?_, ?_, ?_, ?_⟩
  · intro sched
    simpa using runRetryLoop_attempts_le apiAttemptStep maxRetryAPIRequest _ sched 0
  · intro sched
    simpa using runRetryLoop_attempts_le uploadAttemptStep maxRetryUpload _ sched 0
  · intro sched
    simpa using runRetryLoop_attempts_le downloadAttemptStep maxRetryDownload _ sched 0
  · intro o rest; simp [runDoAPIRequest, runRetryLoop]
  · intro o rest; simp [runUploadChunk, runRetryLoop]
  · intro o rest; simp [runDownloadChunk, runRetryLoop]
  · intro it rest honline
    rcases it with ⟨online, o⟩
    cases honline
    simp [runRetryLoop]
  · intro it rest honline
    rcases it with ⟨online, o⟩
    cases honline
    simp [runRetryLoop]
  · intro it rest honline
    rcases it with ⟨online, o⟩
    cases honline
    simp [runRetryLoop]

/-- Witness for C2 at concrete inputs: a concrete schedule issues at most 3
attempts, and a loop whose counter has reached the maximum rejects with the
descriptive message. -/
theorem C2_retry_bounds_witness :
    (runDoAPIRequest (fun _ => "J") 3 "POST" "/v3/dir/create" Json.null 500000
        [⟨true, .badStatus 503⟩, ⟨true, .badStatus 503⟩]).1 ≤ 3 ∧
    runRetryLoop apiAttemptStep 3
        (apiMaxRetryMessage (fun _ => "J") 3 "POST" "/v3/dir/create" Json.null 500000) 3
        [⟨true, APIOutcome.timedOut⟩]
      = (0, some (Except.error
          (apiMaxRetryMessage (fun _ => "J") 3 "POST" "/v3/dir/create" Json.null 500000))) := by
  have h := C2_retry_bounds (fun _ => "J") 3 3 3 "POST" "/v3/dir/create" Json.null 500000
    "uuid=a" "ff" "region" "bucket" "uuid" 0
  exact ⟨h.1 _, h.2.2.2.2.2.2.1 ⟨true, APIOutcome.timedOut⟩ [] rfl⟩

/-!  Lemmas about query-string parsing, used to show the appended hash
     parameter survives into the checksummed object.  -/

/-- splitAmp always yields at least one segment. -/
theorem splitAmp_ne_nil (l : List Char) : splitAmp l ≠ [] := by
  induction l with
  | nil => simp [splitAmp]
  | cons c rest ih =>
    simp only [splitAmp]
    split
    · simp
    · split <;> simp

/-- splitAmp distributes over an ampersand. -/
theorem splitAmp_append_amp (xs ys : List Char) :
    splitAmp (xs ++ Char.ofNat 38 :: ys) = splitAmp xs ++ splitAmp ys := by
  induction xs with
  | nil => simp [splitAmp]
  | cons c rest ih =>
    by_cases hc : c = Char.ofNat 38
    · subst hc
      simp [splitAmp, ih]
    · simp only [List.cons_append, splitAmp, hc, if_false]
      rw [show splitAmp (rest.append (Char.ofNat 38 :: ys)) = splitAmp rest ++ splitAmp ys from ih]
      cases hsp : splitAmp rest with
      | nil => exact absurd hsp (splitAmp_ne_nil rest)
      | cons g gs => simp

/-- A segment without ampersands is returned whole. -/
theorem splitAmp_no_amp (l : List Char) (h : ∀ c ∈ l, c ≠ Char.ofNat 38) :
    splitAmp l = [l] := by
  induction l with
  | nil => rfl
  | cons c rest ih =>
    have hc : c ≠ Char.ofNat 38 := h c (by simp)
    have hrest := ih (fun x hx => h x (by simp [hx]))
    simp [splitAmp, hc, hrest]

/-- Splitting key=value at the first equals sign when the key has none. -/
theorem splitEq_append (k v : List Char) (h : ∀ c ∈ k, c ≠ Char.ofNat 61) :
    splitEq (k ++ Char.ofNat 61 :: v) = (k, v) := by
  induction k with
  | nil => simp [splitEq]
  | cons c rest ih =>
    have hc : c ≠ Char.ofNat 61 := h c (by simp)
    have hrest := ih (fun x hx => h x (by simp [hx]))
    simp [splitEq, hc, hrest]

/-- One decoding step on a character that is neither percent nor plus. -/
theorem decodeChars_cons_plain (c : Char) (rest : List Char)
    (h37 : c ≠ Char.ofNat 37) (h43 : c ≠ Char.ofNat 43) :
    decodeChars (c :: rest) = c :: decodeChars rest := by
  match rest with
  | [] => simp [decodeChars, h37, h43]
  | [d] => simp [decodeChars, h37, h43]
  | d1 :: d2 :: dr => simp [decodeChars, h37, h43]

/-- Percent-decoding is the identity on lists without percent or plus. -/
theorem decodeChars_id (l : List Char)
    (h : ∀ c ∈ l, c ≠ Char.ofNat 37 ∧ c ≠ Char.ofNat 43) : decodeChars l = l := by
  induction l with
  | nil => simp [decodeChars]
  | cons c rest ih =>
    have hc := h c (by simp)
    have hrest := ih (fun x hx => h x (by simp [hx]))
    rw [decodeChars_cons_plain c rest hc.1 hc.2, hrest]

/-- Folding encodeChar over all-unreserved characters is the identity. -/
theorem encodeChars_unreserved (l : List Char)
    (h : ∀ c ∈ l, isUnreservedChar c = true) :
    l.foldr (fun c acc => encodeChar c ++ acc) [] = l := by
  induction l with
  | nil => rfl
  | cons c rest ih =>
    have hc := h c (by simp)
    have hrest := ih (fun x hx => h x (by simp [hx]))
    have henc : encodeChar c = [c] := by simp [encodeChar, hc]
    simp only [List.foldr]
    rw [hrest, henc]
    rfl

/-- encodeURIComponent is the identity on all-unreserved strings. -/
theorem encodeURIComponent_unreserved (s : String)
    (h : ∀ c ∈ s.data, isUnreservedChar c = true) : encodeURIComponent s = s := by
  obtain ⟨l⟩ := s
  unfold encodeURIComponent
  rw [encodeChars_unreserved l h]

/-- An unreserved character is none of the four query-delimiter characters
ampersand, equals, percent, plus. -/
theorem unreservedChar_facts (c : Char) (h : isUnreservedChar c = true) :
    c ≠ Char.ofNat 38 ∧ c ≠ Char.ofNat 61 ∧ c ≠ Char.ofNat 37 ∧ c ≠ Char.ofNat 43 := by
  refine ⟨?_, ?_, ?_, ?_⟩ <;> intro hc <;> subst hc <;> revert h <;> decide

/-- Appending &hash=<urlencoded chunkHash> appends exactly one parsed pair
("hash", chunkHash) when the hash consists of unreserved characters (SHA-512
hex digests do). -/
theorem parseURLParams_append_hash (qp ch : String)
    (hch : ∀ c ∈ ch.data, isUnreservedChar c = true) :
    parseURLParams (uploadQueryAppendHash qp ch) = parseURLParams qp ++ [("hash", ch)] := by
  have henc : encodeURIComponent ch = ch := encodeURIComponent_unreserved ch hch
  unfold uploadQueryAppendHash
  rw [henc]
  have hdata : (qp ++ "&hash=" ++ ch).data
      = qp.data ++ Char.ofNat 38 :: ("hash".data ++ Char.ofNat 61 :: ch.data) := by
    simp [String.data_append]
  have hhashamp : ∀ c ∈ "hash".data, c ≠ Char.ofNat 38 := by decide
  have hseg : ∀ c ∈ ("hash".data ++ Char.ofNat 61 :: ch.data), c ≠ Char.ofNat 38 := by
    intro c hcmem
    rcases List.mem_append.mp hcmem with hmem | hmem
    · exact hhashamp c hmem
    · rcases List.mem_cons.mp hmem with hmem | hmem
      · subst hmem; decide
      · exact (unreservedChar_facts c (hch c hmem)).1
  have hkey : ∀ c ∈ "hash".data, c ≠ Char.ofNat 61 := by decide
  have hchdec : decodeChars ch.data = ch.data :=
    decodeChars_id ch.data (fun c hc =>
      ⟨(unreservedChar_facts c (hch c hc)).2.2.1, (unreservedChar_facts c (hch c hc)).2.2.2⟩)
  unfold parseURLParams
  rw [hdata, splitAmp_append_amp, splitAmp_no_amp _ hseg, List.filter_append, List.map_append]
  congr 1
  have hp : ("hash".data ++ Char.ofNat 61 :: ch.data).isEmpty = false := rfl
  simp only [List.filter_cons, hp, Bool.not_false, if_true, List.filter_nil,
    List.map_cons, List.map_nil]
  rw [splitEq_append _ _ hkey]
  rw [hchdec]
  have hhashdec : decodeChars "hash".data = "hash".data := by decide
  rw [hhashdec]

/-- Looking up the key just assigned into the object model finds its value. -/
theorem lookupKey_setKey (acc : List (String × String)) (k v : String) :
    lookupKey k (setKey acc k v) = some v := by
  induction acc with
  | nil => simp [setKey, lookupKey]
  | cons p rest ih =>
    by_cases hp : p.1 = k
    · simp [setKey, hp, lookupKey]
    · simp [setKey, hp, lookupKey, ih]

/-- After collapsing a pair list that ends with (k, v), looking up k yields
v. -/
theorem collapseParams_last_lookup (ps : List (String × String)) (k v : String) :
    lookupKey k (collapseParams (ps ++ [(k, v)])) = some v := by
  unfold collapseParams
  rw [List.foldl_append]
  exact lookupKey_setKey _ k v

/-- C1: for every doAPIRequest with an upper-cased POST method, the Checksum
header is the SHA-512 (h) of exactly the encoded JSON.stringify(data) that is
written as the request body; for every uploadChunk request, the Checksum
header is the SHA-512 of the encoded JSON serialization of the parsed query
parameters, and (for hex-digest hashes, whose characters are unreserved) the
parsed parameters include the appended hash parameter. -/
theorem C1_checksum_faithful (h : List Nat → String) (jstr : Json → String)
    (method endpoint : String) (data : Json)
    (apiKey version buildNumber platform queryParams chunkHash uploadApiKey : String) :
    (upperStr method = "POST" →
      (doAPIRequestBuild h jstr method endpoint data apiKey version buildNumber platform).body
          = some (jstr data) ∧
      (doAPIRequestBuild h jstr method endpoint data apiKey version buildNumber platform).headers.checksum
          = h (utf8Bytes (jstr data))) ∧
    ((uploadChunkBuild h jstr queryParams chunkHash uploadApiKey version buildNumber platform).headers.checksum
        = h (utf8Bytes (jstr (paramsToJson (uploadParsedParams queryParams chunkHash))))) ∧
    ((∀ c ∈ chunkHash.data, isUnreservedChar c = true) →
      lookupKey "hash" (uploadParsedParams queryParams chunkHash) = some chunkHash) := by
  refine ⟨?_, rfl, ?_⟩
  · intro hp
    refine ⟨?_, rfl⟩
    simp [doAPIRequestBuild, hp]
  · intro hch
    unfold uploadParsedParams
    rw [parseURLParams_append_hash queryParams chunkHash hch]
    exact collapseParams_last_lookup _ _ _

/-- Witness for C1 at concrete inputs: a lower-case post method yields a POST
body equal to the serialized data with its hash as checksum, and a concrete
appended chunk hash is found among the parsed parameters. -/
theorem C1_checksum_faithful_witness :
    ((doAPIRequestBuild (fun _ => "HX") (fun _ => "SJ") "post" "/v3/login" Json.null
        "k" "2" "1" "linux").body = some "SJ" ∧
     (doAPIRequestBuild (fun _ => "HX") (fun _ => "SJ") "post" "/v3/login" Json.null
        "k" "2" "1" "linux").headers.checksum = "HX") ∧
    lookupKey "hash" (uploadParsedParams "uuid=xyz&index=0" "abc123") = some "abc123" := by
  have h := C1_checksum_faithful (fun _ => "HX") (fun _ => "SJ") "post" "/v3/login"
    Json.null "k" "2" "1" "linux" "uuid=xyz&index=0" "abc123" "uk"
  have h1 := h.1 (by decide)
  exact ⟨⟨by rw [h1.1], by rw [h1.2]⟩, h.2.2 (by decide)⟩

/-- A response carrying a matching message but no code field: the source's
check requires both code and message to be strings, so this response passes
through without logout. -/
def c3Resp : Json := .obj [("message", .str "invalid api key")]

/-- C3 counterexample: the claim says any successfully parsed response whose
message contains "invalid api key" triggers exactly one logout and a failed
call, but a response with such a message and no code field triggers no logout
and resolves normally. -/
theorem C3_counterexample_no_code_field :
    containsSubstr (lowerStr "invalid api key") "invalid api key" = true ∧
    apiRequestPostProcess c3Resp = (0, Except.ok c3Resp) := by
  exact ⟨by decide, rfl⟩

/-- C3 amended: a successfully parsed response that carries a string code and
a string message, where the lower-cased message contains "invalid api key" or
"api key not found" or the code equals "api_key_not_found", causes exactly
one logout invocation and fails the call with "Session invalidated". -/
theorem C3_amended_session_invalidation (resp : Json) (c m : String)
    (hc : objGetJ resp "code" = some (.str c))
    (hm : objGetJ resp "message" = some (.str m))
    (hmatch : containsSubstr (lowerStr m) "api key not found" = true ∨
              containsSubstr (lowerStr m) "invalid api key" = true ∨
              c = "api_key_not_found") :
    apiRequestPostProcess resp = (1, Except.error "Session invalidated") := by
  have hcheck : sessionInvalidCheck resp = true := by
    unfold sessionInvalidCheck
    rw [hc, hm]
    rcases hmatch with h1 | h1 | h1 <;> simp [h1]
  simp [apiRequestPostProcess, hcheck]

/-- Witness for the amended C3 at a concrete response. -/
theorem C3_amended_session_invalidation_witness :
    apiRequestPostProcess (Json.obj [("code", .str "x"), ("message", .str "Invalid API key")])
      = (1, Except.error "Session invalidated") := by
  exact C3_amended_session_invalidation _ "x" "Invalid API key" rfl rfl
    (Or.inr (Or.inl (by decide)))

/-- C4: a createFolder whose server response has falsy status and carries
data.existsUUID releases the gate exactly once, resolves with that UUID and
triggers no metadata propagation; a falsy status without existsUUID fails
with the server message. -/
theorem C4_createFolder_exists_uuid (env : CreateFolderEnv) (uuid : String)
    (mk : Json) (enc : String) (resp : Json)
    (hmk : env.masterKeysRes = .ok mk) (henc : env.encryptRes = .ok enc)
    (hapi : env.apiRes = .ok resp)
    (hstatus : truthy (objGetJ resp "status") = false) :
    (∀ e, (objGetJ resp "data").bind (fun d => objGetJ d "existsUUID") = some e →
      runCreateFolder env uuid = ⟨1, false, .ok e⟩) ∧
    ((objGetJ resp "data").bind (fun d => objGetJ d "existsUUID") = none →
      runCreateFolder env uuid
        = ⟨1, false, .error (jsErrMsg (objGetJ resp "message"))⟩) := by
  constructor
  · intro e he
    unfold runCreateFolder
    rw [hmk, henc, hapi]
    simp [hstatus, he]
  · intro he
    unfold runCreateFolder
    rw [hmk, henc, hapi]
    simp [hstatus, he]

/-- Witness for C4 at a concrete exists-UUID response. -/
theorem C4_createFolder_exists_uuid_witness :
    runCreateFolder
        ⟨.ok .null, .ok "enc",
         .ok (Json.obj [("status", .bool false),
                        ("data", .obj [("existsUUID", .str "E")])]),
         .ok ()⟩ "u"
      = ⟨1, false, .ok (.str "E")⟩ := by
  exact (C4_createFolder_exists_uuid
    ⟨.ok .null, .ok "enc",
     .ok (Json.obj [("status", .bool false),
                    ("data", .obj [("existsUUID", .str "E")])]), .ok ()⟩ "u" .null "enc"
    (Json.obj [("status", .bool false),
               ("data", .obj [("existsUUID", .str "E")])])
    rfl rfl rfl rfl).1 (.str "E") rfl

/-- C5: for trashItem, moveFile, moveFolder, renameFile and renameFolder, a
falsy-status response whose code is among the operation's not-found codes
resolves successfully, and any other falsy-status response fails with the
server message. -/
theorem C5_not_found_swallowed (resp : Json) (pr : Except String Unit)
    (hstatus : truthy (objGetJ resp "status") = false) :
    ((jsIncludes ["folder_not_found", "file_not_found"] (objGetJ resp "code") = true →
        trashItemHandle resp = .ok ()) ∧
     (jsIncludes ["folder_not_found", "file_not_found"] (objGetJ resp "code") = false →
        trashItemHandle resp = .error (jsErrMsg (objGetJ resp "message")))) ∧
    ((jsIncludes ["file_not_found"] (objGetJ resp "code") = true →
        moveFileHandle resp pr = .ok ()) ∧
     (jsIncludes ["file_not_found"] (objGetJ resp "code") = false →
        moveFileHandle resp pr = .error (jsErrMsg (objGetJ resp "message")))) ∧
    ((jsIncludes ["folder_not_found"] (objGetJ resp "code") = true →
        moveFolderHandle resp pr = .ok ()) ∧
     (jsIncludes ["folder_not_found"] (objGetJ resp "code") = false →
        moveFolderHandle resp pr = .error (jsErrMsg (objGetJ resp "message")))) ∧
    ((jsIncludes ["file_not_found"] (objGetJ resp "code") = true →
        renameFileHandle resp pr = .ok ()) ∧
     (jsIncludes ["file_not_found"] (objGetJ resp "code") = false →
        renameFileHandle resp pr = .error (jsErrMsg (objGetJ resp "message")))) ∧
    ((jsIncludes ["folder_not_found"] (objGetJ resp "code") = true →
        renameFolderHandle resp pr = .ok ()) ∧
     (jsIncludes ["folder_not_found"] (objGetJ resp "code") = false →
        renameFolderHandle resp pr = .error (jsErrMsg (objGetJ resp "message")))) := by
  refine ⟨⟨?_, ?_⟩, ⟨?_, ?_⟩, ⟨?_, ?_⟩, ⟨?_, ?_⟩, ⟨?_, ?_⟩⟩ <;> intro hcode
  · simp [trashItemHandle, hstatus, hcode]
  · simp [trashItemHandle, hstatus, hcode]
  · simp [moveFileHandle, hstatus, hcode]
  · simp [moveFileHandle, hstatus, hcode]
  · simp [moveFolderHandle, hstatus, hcode]
  · simp [moveFolderHandle, hstatus, hcode]
  · simp [renameFileHandle, hstatus, hcode]
  · simp [renameFileHandle, hstatus, hcode]
  · simp [renameFolderHandle, hstatus, hcode]
  · simp [renameFolderHandle, hstatus, hcode]

/-- Witness for C5 at concrete responses: a not-found code resolves, another
code fails with the message. -/
theorem C5_not_found_swallowed_witness :
    trashItemHandle (Json.obj [("status", .bool false),
        ("code", .str "folder_not_found")]) = .ok () ∧
    renameFileHandle (Json.obj [("status", .bool false), ("code", .str "bad"),
        ("message", .str "err")]) (.ok ()) = .error "err" := by
  constructor
  · exact (C5_not_found_swallowed
      (Json.obj [("status", .bool false), ("code", .str "folder_not_found")])
      (.ok ()) rfl).1.1 rfl
  · exact (C5_not_found_swallowed
      (Json.obj [("status", .bool false), ("code", .str "bad"), ("message", .str "err")])
      (.ok ()) rfl).2.2.2.1.2 rfl

/-- C6: an uploadChunk response with falsy status whose message mentions
"storage" (case-insensitively) writes paused=true and maxStorageReached=true
to the configuration store and rejects with the server message; one whose
message does not mention storage rejects with the message and writes
nothing. -/
theorem C6_upload_storage_exhaustion (obj : Json) (m : String)
    (hm : objGetJ obj "message" = some (.str m))
    (hstatus : truthy (objGetJ obj "status") = false) :
    (containsSubstr (lowerStr m) "storage" = true →
      uploadHandleParsed obj
        = ([("paused", .bool true), ("maxStorageReached", .bool true)], .error m)) ∧
    (containsSubstr (lowerStr m) "storage" = false →
      uploadHandleParsed obj = ([], .error m)) := by
  constructor <;> intro hc <;> simp [uploadHandleParsed, hstatus, hm, hc]

/-- Witness for C6 at concrete responses. -/
theorem C6_upload_storage_exhaustion_witness :
    uploadHandleParsed (Json.obj [("status", .bool false),
        ("message", .str "No more Storage available")])
      = ([("paused", .bool true), ("maxStorageReached", .bool true)],
         .error "No more Storage available") ∧
    uploadHandleParsed (Json.obj [("status", .bool false),
        ("message", .str "chunk rejected")])
      = ([], .error "chunk rejected") := by
  constructor
  · exact (C6_upload_storage_exhaustion
      (Json.obj [("status", .bool false), ("message", .str "No more Storage available")])
      "No more Storage available" rfl rfl).1 (by decide)
  · exact (C6_upload_storage_exhaustion
      (Json.obj [("status", .bool false), ("message", .str "chunk rejected")])
      "chunk rejected" rfl rfl).2 (by decide)

/-- C9 counterexample: the claim says the host of each API request is a
freshly drawn random entry of apiServers, but doAPIRequest hardcodes
gateway.filen.io: a request built while the sampler draws index 1 is still
sent to gateway.filen.io, not the drawn gateway.filen.net. -/
theorem C9_counterexample_fixed_host :
    (doAPIRequestBuild (fun _ => "HX") (fun _ => "SJ") "POST" "/v3/dir/create"
        Json.null "k" "2" "1" "linux").hostname = "gateway.filen.io" ∧
    getAPIServer 1 = "gateway.filen.net" ∧
    "gateway.filen.io" ≠ "gateway.filen.net" := by
  exact ⟨rfl, rfl, by decide⟩

/-- C9 amended: getAPIServer returns the sampled entry of the configured
list, but doAPIRequest never consults it: every API request it builds is
addressed to the fixed hostname gateway.filen.io, independent of any random
draw. -/
theorem C9_amended_fixed_host (h : List Nat → String) (jstr : Json → String)
    (method endpoint : String) (data : Json)
    (apiKey version buildNumber platform : String) (randIndex : Nat) :
    (doAPIRequestBuild h jstr method endpoint data apiKey version buildNumber platform).hostname
        = "gateway.filen.io" ∧
    getAPIServer randIndex = apiServers.getD randIndex "" := by
  exact ⟨rfl, rfl⟩

/-- C10: every createFolder run that acquired the 1-permit semaphore releases
it exactly once, on every exit path: failed reads, failed encryption, failed
request, exists-UUID early return, server error, failed propagation and
success. -/
theorem C10_semaphore_released_once (env : CreateFolderEnv) (uuid : String) :
    (runCreateFolder env uuid).releases = 1 := by
  rcases env with ⟨mk, enc, api, prop⟩
  cases mk <;> cases enc <;> cases api <;>
    simp only [runCreateFolder] <;>
    first
      | rfl
      | (split
         · split <;> rfl
         · cases prop <;> rfl)

/-!  Lemmas about the transfer trace.  -/

/-- Any passing gate poll in a transfer trace observed no applicable pause
flag. -/
theorem runTransferTrace_pollPassed {ω α : Type} (step : ω → StepResult α)
    (src : String) (location : Option String) (maxRetry : Nat) :
    ∀ (env : List (TransferIter ω)) (phase : Bool) (tries : Nat) (g : PauseFlags),
      TransferEvent.pollPassed g ∈ runTransferTrace step src location maxRetry phase tries env →
      applicablePaused src location g = false := by
  intro env
  induction env with
  | nil => intro phase tries g hmem; simp [runTransferTrace] at hmem
  | cons it rest ih =>
    intro phase tries g hmem
    cases phase with
    | false =>
      simp only [runTransferTrace] at hmem
      by_cases hap : applicablePaused src location it.flags = true
      · rw [if_pos hap] at hmem
        rcases List.mem_cons.mp hmem with heq | hmem2
        · exact absurd heq (by simp)
        · exact ih false tries g hmem2
      · rw [if_neg hap] at hmem
        rcases List.mem_cons.mp hmem with heq | hmem2
        · cases heq
          simpa using hap
        · exact ih true tries g hmem2
    | true =>
      simp only [runTransferTrace] at hmem
      by_cases hon : it.online = false
      · rw [if_pos hon] at hmem
        exact ih true tries g hmem
      · rw [if_neg hon] at hmem
        by_cases hm : maxRetry ≤ tries
        · rw [if_pos hm] at hmem
          simp at hmem
        · rw [if_neg hm] at hmem
          rcases List.mem_cons.mp hmem with heq | hmem2
          · exact absurd heq (by simp)
          · cases hstep : step it.outcome with
            | finish r => rw [hstep] at hmem2; simp at hmem2
            | retryStep => rw [hstep] at hmem2; exact ih true (tries + 1) g hmem2

/-- Any blocked gate poll in a transfer trace observed an applicable pause
flag set and scheduled the next poll one second later. -/
theorem runTransferTrace_pollBlocked {ω α : Type} (step : ω → StepResult α)
    (src : String) (location : Option String) (maxRetry : Nat) :
    ∀ (env : List (TransferIter ω)) (phase : Bool) (tries : Nat) (g : PauseFlags) (d : Nat),
      TransferEvent.pollBlocked g d ∈ runTransferTrace step src location maxRetry phase tries env →
      applicablePaused src location g = true ∧ d = 1000 := by
  intro env
  induction env with
  | nil => intro phase tries g d hmem; simp [runTransferTrace] at hmem
  | cons it rest ih =>
    intro phase tries g d hmem
    cases phase with
    | false =>
      simp only [runTransferTrace] at hmem
      by_cases hap : applicablePaused src location it.flags = true
      · rw [if_pos hap] at hmem
        rcases List.mem_cons.mp hmem with heq | hmem2
        · cases heq
          exact ⟨hap, rfl⟩
        · exact ih false tries g d hmem2
      · rw [if_neg hap] at hmem
        rcases List.mem_cons.mp hmem with heq | hmem2
        · exact absurd heq (by simp)
        · exact ih true tries g d hmem2
    | true =>
      simp only [runTransferTrace] at hmem
      by_cases hon : it.online = false
      · rw [if_pos hon] at hmem
        exact ih true tries g d hmem
      · rw [if_neg hon] at hmem
        by_cases hm : maxRetry ≤ tries
        · rw [if_pos hm] at hmem
          simp at hmem
        · rw [if_neg hm] at hmem
          rcases List.mem_cons.mp hmem with heq | hmem2
          · exact absurd heq (by simp)
          · cases hstep : step it.outcome with
            | finish r => rw [hstep] at hmem2; simp at hmem2
            | retryStep => rw [hstep] at hmem2; exact ih true (tries + 1) g d hmem2

/-- A transfer trace started in the gate phase never emits an HTTP attempt
before its first passing poll. -/
theorem attemptBeforePass_runTransferTrace {ω α : Type} (step : ω → StepResult α)
    (src : String) (location : Option String) (maxRetry : Nat) :
    ∀ (env : List (TransferIter ω)) (tries : Nat),
      attemptBeforePass (runTransferTrace step src location maxRetry false tries env) = false := by
  intro env
  induction env with
  | nil => intro tries; rfl
  | cons it rest ih =>
    intro tries
    simp only [runTransferTrace]
    by_cases hap : applicablePaused src location it.flags = true
    · rw [if_pos hap]
      simp only [attemptBeforePass]
      exact ih tries
    · rw [if_neg hap]
      rfl

/-- Pause flags all clear. -/
def c7ClearFlags : PauseFlags := ⟨false, false, false, false⟩

/-- Global pause set. -/
def c7PausedFlags : PauseFlags := ⟨true, false, false, false⟩

/-- An environment in which the gate passes while flags are clear, the first
attempt fails with a 500, and the global pause flag is raised before the
retry attempt. -/
def c7Env : List (TransferIter UploadOutcome) :=
  [⟨c7ClearFlags, true, .badStatus 500⟩,
   ⟨c7ClearFlags, true, .badStatus 500⟩,
   ⟨c7PausedFlags, true, .badStatus 500⟩]

/-- C7 counterexample: the claim says the engine blocks before each transfer
attempt so that no HTTP request is emitted while the applicable pause flag is
set, but the gate runs only once per call: after a failed first attempt the
retry attempt is issued without re-consulting the gate, here while the global
paused flag is set. -/
theorem C7_counterexample_retry_ignores_pause :
    runUploadChunkTrace "sync" none 3 c7Env
      = [.pollPassed c7ClearFlags, .attempt c7ClearFlags, .attempt c7PausedFlags] ∧
    applicablePaused "sync" none c7PausedFlags = true ∧
    noAttemptWhilePaused "sync" none (runUploadChunkTrace "sync" none 3 c7Env) = false := by
  exact ⟨rfl, rfl, by decide⟩

/-- C7 amended: before the first transfer attempt of each uploadChunk and
downloadChunk call the engine blocks in a 1-second polling loop until a poll
observes no applicable pause flag (global paused plus per-location pause for
sync transfers with a location, global paused for sync without one,
downloadPaused or uploadPaused for sources naming that direction, global
paused otherwise); every passing poll observed the applicable flag clear and
every blocked poll observed it set; the gate is consulted once per call, not
before each retry attempt, so a retry may issue an HTTP request while a flag
raised after the gate passed is set. -/
theorem C7_amended_pause_gate (src : String) (location : Option String)
    (maxRetry : Nat) (uenv : List (TransferIter UploadOutcome))
    (denv : List (TransferIter DownloadOutcome)) (f : PauseFlags) (l : String) :
    (∀ g, TransferEvent.pollPassed g ∈ runUploadChunkTrace src location maxRetry uenv →
        applicablePaused src location g = false) ∧
    (∀ g d, TransferEvent.pollBlocked g d ∈ runUploadChunkTrace src location maxRetry uenv →
        applicablePaused src location g = true ∧ d = 1000) ∧
    attemptBeforePass (runUploadChunkTrace src location maxRetry uenv) = false ∧
    (∀ g, TransferEvent.pollPassed g ∈ runDownloadChunkTrace src location maxRetry denv →
        applicablePaused src location g = false) ∧
    (∀ g d, TransferEvent.pollBlocked g d ∈ runDownloadChunkTrace src location maxRetry denv →
        applicablePaused src location g = true ∧ d = 1000) ∧
    attemptBeforePass (runDownloadChunkTrace src location maxRetry denv) = false ∧
    applicablePaused "sync" (some l) f = (f.paused || f.locationPaused) ∧
    applicablePaused "sync" none f = f.paused ∧
    (src ≠ "sync" → containsSubstr src "download" = true →
        applicablePaused src location f = f.downloadPaused) ∧
    (src ≠ "sync" → containsSubstr src "download" = false →
        containsSubstr src "upload" = true →
        applicablePaused src location f = f.uploadPaused) ∧
    (src ≠ "sync" → containsSubstr src "download" = false →
        containsSubstr src "upload" = false →
        applicablePaused src location f = f.paused) := by
  refine ⟨?_, ?_, ?_, ?_, ?_, ?_, rfl, rfl, ?_, ?_, ?_⟩
  · intro g hmem
    exact runTransferTrace_pollPassed uploadAttemptStep src location maxRetry uenv false 0 g hmem
  · intro g d hmem
    exact runTransferTrace_pollBlocked uploadAttemptStep src location maxRetry uenv false 0 g d hmem
  · exact attemptBeforePass_runTransferTrace uploadAttemptStep src location maxRetry uenv 0
  · intro g hmem
    exact runTransferTrace_pollPassed downloadAttemptStep src location maxRetry denv false 0 g hmem
  · intro g d hmem
    exact runTransferTrace_pollBlocked downloadAttemptStep src location maxRetry denv false 0 g d hmem
  · exact attemptBeforePass_runTransferTrace downloadAttemptStep src location maxRetry denv 0
  · intro hsrc hdl
    simp [applicablePaused, hsrc, hdl]
  · intro hsrc hdl hul
    simp [applicablePaused, hsrc, hdl, hul]
  · intro hsrc hdl hul
    simp [applicablePaused, hsrc, hdl, hul]

/-- Witness for the amended C7 at concrete inputs: a non-sync download source
consults downloadPaused, and a concrete upload trace emits no attempt before
its gate passes. -/
theorem C7_amended_pause_gate_witness :
    applicablePaused "folderdownload" none c7PausedFlags = c7PausedFlags.downloadPaused ∧
    attemptBeforePass (runUploadChunkTrace "folderdownload" none 3 c7Env) = false := by
  have h := C7_amended_pause_gate "folderdownload" none 3 c7Env [] c7PausedFlags "loc"
  exact ⟨h.2.2.2.2.2.2.2.2.1 (by decide) (by decide), h.2.2.1⟩

/-- Tag stripping instantiated as the identity (the counterexample names
carry no tags). -/
def c8Strip : String → String := fun s => s

/-- A folder-name decrypter that succeeds only on the blob "good". -/
def c8DecFolder : String → Option String :=
  fun b => if b = "good" then some "Folder A" else none

/-- A file-metadata decrypter whose recovered name is empty. -/
def c8DecFile : String → Option FileMeta :=
  fun _ => some ⟨"", .null, "", .null, .null⟩

/-- Contents rows: one decryptable file whose name strips to empty, one
decryptable folder, one undecryptable folder. -/
def c8Files : List RemoteFileEntry := [⟨"file1", "pf", "blob"⟩]

/-- The folders array of the counterexample. -/
def c8Folders : List RemoteFolderEntry := [⟨"fA", "p1", "good"⟩, ⟨"fB", "p2", "bad"⟩]

/-- C8 counterexample: the claim says the list is the mutated folder followed
by every decryptable descendant file and folder, but the built list includes
the undecryptable folder fB (its name blob fails to decrypt, yet the
var-scoped loop variable still holds the previous folder's name "Folder A"),
and it omits the decryptable file file1 whose stripped name is empty. -/
theorem C8_counterexample_stale_name :
    buildItemsToShare c8Strip c8DecFile c8DecFolder "root" "Root" "p0" c8Files c8Folders
      = [⟨"root", "p0", .folderName "Root", "folder"⟩,
         ⟨"fA", "none", .folderName "Folder A", "folder"⟩,
         ⟨"fB", "p2", .folderName "Folder A", "folder"⟩] ∧
    c8DecFolder "bad" = none ∧
    (buildItemsToShare c8Strip c8DecFile c8DecFolder "root" "Root" "p0" c8Files
        c8Folders).all (fun it => it.uuid != "file1") = true := by
  exact ⟨rfl, rfl, by decide⟩

/-- The threaded folder loop equals its positional description: the entry at
index i is determined by the row at i and by the last successful decryption
at or before i. -/
theorem foldersShareLoop_eq_positional (strip : String → String)
    (decFolder : String → Option String) (metaUuid : String) :
    ∀ (folders : List RemoteFolderEntry) (i0 : Nat) (start : Option String),
      foldersShareLoop strip decFolder metaUuid i0 start folders
        = (List.range folders.length).filterMap
            (fun j => folderEntryAux metaUuid (i0 + j)
              (staleNameFrom strip decFolder start folders j) (folders.get? j)) := by
  intro folders
  induction folders with
  | nil => intro i0 start; simp [foldersShareLoop]
  | cons f rest ih =>
    intro i0 start
    rw [List.length_cons, List.range_succ_eq_map, List.filterMap_cons, List.filterMap_map]
    have htail : List.filterMap
        ((fun j => folderEntryAux metaUuid (i0 + j)
            (staleNameFrom strip decFolder start (f :: rest) j) ((f :: rest).get? j)) ∘ Nat.succ)
        (List.range rest.length)
        = foldersShareLoop strip decFolder metaUuid (i0 + 1)
            (match decFolder f.name with
             | some s => some (strip s)
             | none => start) rest := by
      rw [ih]
      apply List.filterMap_congr
      intro j hj
      simp only [Function.comp]
      rw [show i0 + Nat.succ j = i0 + 1 + j from by omega]
      have hstale : staleNameFrom strip decFolder start (f :: rest) (Nat.succ j)
          = staleNameFrom strip decFolder
              (match decFolder f.name with
               | some s => some (strip s)
               | none => start) rest j := by
        simp [staleNameFrom, List.take_succ_cons]
      rw [hstale]
      rfl
    rw [htail]
    have hcur0 : staleNameFrom strip decFolder start (f :: rest) 0
        = (match decFolder f.name with
           | some s => some (strip s)
           | none => start) := by
      simp [staleNameFrom]
    simp only [foldersShareLoop, Nat.add_zero, hcur0]
    cases hdec : decFolder f.name with
    | some s =>
      simp only [hdec]
      by_cases hcond : 0 < (strip s).length ∧ f.uuid ≠ metaUuid ∧ f.parent ≠ "base"
      · simp [folderEntryAux, hcond]
      · simp [folderEntryAux, hcond]
    | none =>
      simp only [hdec]
      cases start with
      | none => simp [folderEntryAux]
      | some s0 =>
        by_cases hcond : 0 < s0.length ∧ f.uuid ≠ metaUuid ∧ f.parent ≠ "base"
        · simp [folderEntryAux, hcond]
        · simp [folderEntryAux, hcond]

/-- C8 amended: the items-to-share list starts with the mutated folder itself
carrying its real parent and plaintext name; then every file whose metadata
decrypts to a record with a nonempty tag-stripped name, carrying its real
parent; then, for each index i of the folders array, an entry exactly when
the most recent successful name decryption at or before i (a var-scoped value
that goes stale when decryption at i fails) is a nonempty string and the row
is neither the mutated folder nor parented at "base" - the entry carries that
possibly-stale name, with the parent rewritten to "none" exactly when i = 0;
the items-to-link list is built identically. -/
theorem C8_amended_items_list (strip : String → String)
    (decFile : String → Option FileMeta) (decFolder : String → Option String)
    (metaUuid metaName parent : String) (files : List RemoteFileEntry)
    (folders : List RemoteFolderEntry) :
    buildItemsToShare strip decFile decFolder metaUuid metaName parent files folders
      = ⟨metaUuid, parent, .folderName metaName, "folder"⟩ ::
          (files.filterMap (fileShareEntry strip decFile) ++
            (List.range folders.length).filterMap
              (folderEntryAt strip decFolder metaUuid folders)) ∧
    buildItemsToLink strip decFile decFolder metaUuid metaName parent files folders
      = buildItemsToShare strip decFile decFolder metaUuid metaName parent files folders := by
  constructor
  · unfold buildItemsToShare
    congr 1
    congr 1
    rw [foldersShareLoop_eq_positional]
    apply List.filterMap_congr
    intro j hj
    unfold folderEntryAt
    rw [show 0 + j = j from by omega]
  · rfl
